import Mathlib

/-!
Shallow embedding of the altro-cpp constraint layer:
the convex cones (`ZeroCone`, `IdentityCone`, `NegativeOrthant`) of
`altro/constraints/constraint.hpp`, the example constraints
(`GoalConstraint`, `ControlBound`) of `examples/basic_constraints.hpp`,
and the `Problem` container (modelled from the specification, since its
implementation file is not part of this source snapshot).

Modelling conventions:
* `double` values that only ever enter order comparisons, `min`, and exact
  sign tests are embedded as `ℚ`; IEEE infinities (used as default control
  bounds) are embedded by the inductive `Dbl` with explicit `posInf`/`negInf`.
* Eigen output buffers that a C++ method overwrites completely are dropped
  from the Lean signature; a buffer that a method only partially writes
  (the `NegativeOrthant::Jacobian` case) stays an explicit argument
  `ℕ → ℕ → ℚ` and the method returns the updated buffer.
* `ALTRO_ASSERT` guards on arguments are embedded by `Option`-returning
  constructors/setters: `none` is the assertion firing.
-/

set_option autoImplicit false
set_option linter.unusedVariables false
set_option maxRecDepth 40000

/-- The largest finite IEEE double, `std::numeric_limits<double>::max()`,
as an exact rational: (2 - 2⁻⁵²)·2¹⁰²³ = 2¹⁰²⁴ - 2⁹⁷¹ (computed in ℕ so
that kernel evaluation of comparisons against it reduces). -/
def dblMax : ℚ := ((2 ^ 1024 - 2 ^ 971 : ℕ) : ℚ)

/-- A C++ `double` as used by the control-bound code: either a finite value
(embedded exactly as a rational) or one of the two infinities.  NaN never
arises in the modelled code paths. -/
inductive Dbl where
  | fin : ℚ → Dbl
  | posInf : Dbl
  | negInf : Dbl
deriving DecidableEq, Repr

instance : Inhabited Dbl := ⟨Dbl.fin 0⟩

/-- The test `std::abs(bound[i]) < std::numeric_limits<double>::max()` from
`ControlBound::GetFiniteIndices`: true exactly for finite values of
magnitude strictly below `DBL_MAX` (so `±DBL_MAX` itself and `±inf` fail). -/
def Dbl.isFinite : Dbl → Bool
  | .fin q => decide (|q| < dblMax)
  | .posInf => false
  | .negInf => false

/-- IEEE `<=` on non-NaN doubles, used by `ControlBound::ValidateBounds`. -/
def Dbl.le : Dbl → Dbl → Bool
  | .negInf, _ => true
  | _, .posInf => true
  | .posInf, _ => false
  | _, .negInf => false
  | .fin a, .fin b => decide (a ≤ b)

/-- Finite part of a `Dbl` (junk value 0 on the infinities; only ever applied
to entries selected by `Dbl.isFinite`). -/
def Dbl.toRat : Dbl → ℚ
  | .fin q => q
  | .posInf => 0
  | .negInf => 0

/-! ## Cones (`altro/constraints/constraint.hpp`)

Vectors are `List ℚ`; matrices written into caller buffers are `ℕ → ℕ → ℚ`
(entries outside the buffer extent are irrelevant to every statement). -/

/-- C++ `ZeroCone::Projection`: `x_proj.setZero()` — the output buffer (same size
as `x`, by the assert) is overwritten with zeros. -/
def ZeroCone.Projection (x : List ℚ) : List ℚ :=
  List.replicate x.length 0

/-- C++ `ZeroCone::Jacobian`: `jac.setZero()` overwrites the whole buffer. -/
def ZeroCone.Jacobian (x : List ℚ) (jac : ℕ → ℕ → ℚ) : ℕ → ℕ → ℚ :=
  fun _ _ => 0

/-- C++ `ZeroCone::Hessian`: `hess.setZero()` overwrites the whole buffer. -/
def ZeroCone.Hessian (x b : List ℚ) (hess : ℕ → ℕ → ℚ) : ℕ → ℕ → ℚ :=
  fun _ _ => 0

/-- C++ `IdentityCone::Projection`: `x_proj = x`. -/
def IdentityCone.Projection (x : List ℚ) : List ℚ := x

/-- C++ `IdentityCone::Jacobian`: `jac.setIdentity()` overwrites the whole
buffer with the identity matrix. -/
def IdentityCone.Jacobian (x : List ℚ) (jac : ℕ → ℕ → ℚ) : ℕ → ℕ → ℚ :=
  fun i j => if i = j then 1 else 0

/-- C++ `IdentityCone::Hessian`: `hess.setZero()`. -/
def IdentityCone.Hessian (x b : List ℚ) (hess : ℕ → ℕ → ℚ) : ℕ → ℕ → ℚ :=
  fun _ _ => 0

/-- C++ `NegativeOrthant::Projection`: the loop `x_proj(i) = std::min(0.0, x(i))`
for every `i < x.size()` (the buffer has the same size, by the assert, and is
completely overwritten). -/
def NegativeOrthant.Projection (x : List ℚ) : List ℚ :=
  x.map (fun a => min 0 a)

/-- C++ `NegativeOrthant::Jacobian`: the loop `jac(i, i) = x(i) > 0 ? 0 : 1` for
`i < x.size()`.  Note there is no `jac.setZero()`: entries off the diagonal
(and rows at or beyond `x.size()`) keep the buffer's prior contents. -/
def NegativeOrthant.Jacobian (x : List ℚ) (jac : ℕ → ℕ → ℚ) : ℕ → ℕ → ℚ :=
  fun i j =>
    if i = j ∧ i < x.length then (if 0 < x.getD i 0 then 0 else 1)
    else jac i j

/-- C++ `NegativeOrthant::Hessian`: `hess.setZero()`. -/
def NegativeOrthant.Hessian (x b : List ℚ) (hess : ℕ → ℕ → ℚ) : ℕ → ℕ → ℚ :=
  fun _ _ => 0

/-- The three cone kinds of the constraint layer, as a tag. -/
inductive ConeKind where
  | zero : ConeKind
  | identity : ConeKind
  | negativeOrthant : ConeKind
deriving DecidableEq, Repr

/-- The `using DualCone = ...` aliases: `ZeroCone.DualCone = IdentityCone`,
`IdentityCone.DualCone = ZeroCone`, `NegativeOrthant.DualCone =
NegativeOrthant`. -/
def ConeKind.dualCone : ConeKind → ConeKind
  | .zero => .identity
  | .identity => .zero
  | .negativeOrthant => .negativeOrthant

/-! ## ControlBound (`examples/basic_constraints.hpp`) -/

/-- The index accumulation loop of `ControlBound::GetFiniteIndices`: `i` is
the index of the head of the remaining list. -/
def getFiniteIndicesAux : ℕ → List Dbl → List ℕ
  | _, [] => []
  | i, b :: rest =>
    if b.isFinite then i :: getFiniteIndicesAux (i + 1) rest
    else getFiniteIndicesAux (i + 1) rest

/-- C++ `ControlBound::GetFiniteIndices`: the indices `i < bound.size()` with
`std::abs(bound[i]) < DBL_MAX`, in increasing order. -/
def GetFiniteIndices (bound : List Dbl) : List ℕ :=
  getFiniteIndicesAux 0 bound

/-- The state of a `ControlBound` constraint.  The stored index vectors
`index_lower_bound_` / `index_upper_bound_` are recomputed from the bounds by
every constructor and setter, so they are kept derived here
(`GetFiniteIndices lower_bound` / `GetFiniteIndices upper_bound`). -/
structure ControlBound where
  m : ℕ
  lower_bound : List Dbl
  upper_bound : List Dbl
deriving DecidableEq, Repr

/-- C++ `ControlBound::ValidateBounds`: asserts
`lower_bound_[i] <= upper_bound_[i]` for every `i < m_`. -/
def ControlBound.ValidateBounds (m : ℕ) (lb ub : List Dbl) : Bool :=
  (List.range m).all fun i => Dbl.le (lb.getD i default) (ub.getD i default)

/-- The one-argument constructor `ControlBound(m)`: every lower bound is
`-inf`, every upper bound `+inf`. -/
def ControlBound.mkDim (m : ℕ) : ControlBound :=
  ⟨m, List.replicate m Dbl.negInf, List.replicate m Dbl.posInf⟩

/-- The two-argument constructor `ControlBound(lb, ub)` with its asserts in
source order: equal lengths, nonempty, then `ValidateBounds`;
`none` models an assertion firing. -/
def ControlBound.mk2? (lb ub : List Dbl) : Option ControlBound :=
  if lb.length = ub.length then
    if 0 < lb.length then
      if ControlBound.ValidateBounds lb.length lb ub then
        some ⟨lb.length, lb, ub⟩
      else none
    else none
  else none

/-- C++ `ControlBound::SetLowerBound`: asserts the new vector has length `m_`,
stores it, recomputes the finite indices and revalidates. -/
def ControlBound.SetLowerBound? (cb : ControlBound) (lb : List Dbl) : Option ControlBound :=
  if lb.length = cb.m then
    if ControlBound.ValidateBounds cb.m lb cb.upper_bound then
      some { cb with lower_bound := lb }
    else none
  else none

/-- C++ `ControlBound::SetUpperBound`: asserts the new vector has length `m_`,
stores it, recomputes the finite indices and revalidates. -/
def ControlBound.SetUpperBound? (cb : ControlBound) (ub : List Dbl) : Option ControlBound :=
  if ub.length = cb.m then
    if ControlBound.ValidateBounds cb.m cb.lower_bound ub then
      some { cb with upper_bound := ub }
    else none
  else none

/-- C++ `ControlBound::OutputDimension`:
`index_lower_bound_.size() + index_upper_bound_.size()`. -/
def ControlBound.OutputDimension (cb : ControlBound) : ℕ :=
  (GetFiniteIndices cb.lower_bound).length + (GetFiniteIndices cb.upper_bound).length

/-- C++ `ControlBound::Evaluate`: writes the lower-bound rows
`c(i) = lower_bound_.at(j) - u(j)` for `j = index_lower_bound_[i]` first,
then the upper-bound rows `c(i + offset) = u(j) - upper_bound_.at(j)` with
`offset = index_lower_bound_.size()`. -/
def ControlBound.Evaluate (cb : ControlBound) (u : List ℚ) : List ℚ :=
  ((GetFiniteIndices cb.lower_bound).map fun j =>
      (cb.lower_bound.getD j default).toRat - u.getD j 0)
    ++ ((GetFiniteIndices cb.upper_bound).map fun j =>
      u.getD j 0 - (cb.upper_bound.getD j default).toRat)

/-! ## Problem (modelled from the specification)

The implementation of `altro::problem::Problem` is not part of this source
snapshot (only its unit tests are), so the container is modelled from the
specification: per-knot cost, dynamics and constraint storage over knots
`k ∈ [0, N]`, an initial state, the completeness check `IsFullyDefined`,
the constraint registration `SetConstraint` with its null / zero-length
guards, and `NumConstraints`. -/

/-- Modelled from the spec: the part of a dynamics model `Problem` consults —
its declared state and control dimensions (`StateDimension`,
`ControlDimension`). -/
structure DynamicsStub where
  n : ℕ
  m : ℕ
deriving DecidableEq, Repr

/-- Modelled from the spec: the part of a registered constraint `Problem`
consults — its `OutputDimension` (the length of its output). -/
structure ConstraintStub where
  outputDim : ℕ
deriving DecidableEq, Repr

/-- Modelled from the spec: the `Problem` container.  `costfuns`, `models`
and `cons` are per-knot stores over `k ∈ [0, N]` (lists of length `N + 1`;
`models` at `k = N` is never set), `some`/`none` standing for non-null/null
shared handles; each registered constraint is kept with its cone tag. -/
structure Problem where
  N : ℕ
  costfuns : List (Option Unit)
  models : List (Option DynamicsStub)
  cons : List (List (ConeKind × ConstraintStub))
  x0 : List ℚ
deriving DecidableEq, Repr

/-- Modelled from the spec: `Problem(N)` starts with every handle null, no
constraints, and an empty initial state. -/
def Problem.init (N : ℕ) : Problem :=
  ⟨N, List.replicate (N + 1) none, List.replicate (N + 1) none,
    List.replicate (N + 1) [], []⟩

/-- Modelled from the spec: `SetInitialState(x0)` stores the vector. -/
def Problem.SetInitialState (p : Problem) (x : List ℚ) : Problem :=
  { p with x0 := x }

/-- Modelled from the spec: `IsFullyDefined()` — every knot `k ∈ [0, N-1]`
has non-null dynamics and cost, the terminal knot `N` has a non-null cost,
and `x₀` has the state dimension `n` declared by the dynamics. -/
def Problem.IsFullyDefined (p : Problem) : Bool :=
  ((List.range p.N).all fun k =>
      (p.models.getD k none).isSome && (p.costfuns.getD k none).isSome)
    && (p.costfuns.getD p.N none).isSome
    && (match p.models.getD 0 none with
        | some d => p.x0.length == d.n
        | none => false)

/-- Modelled from the spec and the `AddConstraintsDeath` test:
`SetConstraint(con, k)` for `k ∈ [0, N]` (called through the equality or the
inequality overload, `kind`) rejects a null handle
("provide a valid constraint pointer"), rejects a constraint of output
length zero ("length greater than zero"), and rejects an out-of-range knot;
otherwise it adds the constraint to the collection at knot `k`.
`none` models the assertion firing. -/
def Problem.SetConstraint (p : Problem) (kind : ConeKind)
    (con : Option ConstraintStub) (k : ℕ) : Option Problem :=
  match con with
  | none => none
  | some c =>
    if c.outputDim = 0 then none
    else if k ≤ p.N then
      some { p with cons := p.cons.set k ((kind, c) :: p.cons.getD k []) }
    else none

/-- Modelled from the spec: `NumConstraints(k)` — the sum of the output
dimensions of the constraints registered at knot `k`. -/
def Problem.NumConstraints (p : Problem) (k : ℕ) : ℕ :=
  ((p.cons.getD k []).map fun e => e.2.outputDim).sum

/-- The matrix the specification claims `NegativeOrthant::Jacobian` produces
at `v` (stated from the spec's words, for comparison with the embedded
code): diagonal entry 1 when `vᵢ ≤ 0` and 0 when `vᵢ > 0`, every
off-diagonal entry 0. -/
def claimedNegativeOrthantJacobian (v : List ℚ) : ℕ → ℕ → ℚ :=
  fun i j =>
    if i = j then (if v.getD i 0 ≤ 0 then 1 else 0) else 0

/-! ## Helper lemmas -/

/-- A vector is a fixed point of the NegativeOrthant projection exactly when
all its components are nonpositive (membership in the cone). -/
theorem negativeOrthant_proj_fixed (v : List ℚ) :
    NegativeOrthant.Projection v = v ↔ ∀ y ∈ v, y ≤ 0 := by
  induction v with
  | nil => simp [NegativeOrthant.Projection]
  | cons a t ih =>
    simp only [NegativeOrthant.Projection, List.map_cons, List.cons.injEq,
      List.mem_cons] at *
    constructor
    · rintro ⟨h1, h2⟩ y hy
      rcases hy with rfl | hy
      · exact min_eq_right_iff.mp h1
      · exact ih.mp h2 y hy
    · intro h
      exact ⟨min_eq_right (h a (Or.inl rfl)), ih.mpr fun y hy => h y (Or.inr hy)⟩

/-- The finite-index accumulation loop returns one index per finite entry,
whatever the running start index. -/
theorem getFiniteIndicesAux_length (l : List Dbl) :
    ∀ i : ℕ, (getFiniteIndicesAux i l).length = l.countP Dbl.isFinite := by
  induction l with
  | nil => intro i; simp [getFiniteIndicesAux]
  | cons b t ih =>
    intro i
    by_cases hb : b.isFinite <;>
      simp [getFiniteIndicesAux, hb, ih, List.countP_cons]

/-- The finite-index loop over a list with no finite entries is empty. -/
theorem getFiniteIndicesAux_replicate_nonfinite (m : ℕ) :
    ∀ (i : ℕ) (b : Dbl), b.isFinite = false →
      getFiniteIndicesAux i (List.replicate m b) = [] := by
  induction m with
  | zero => intro i b hb; simp [getFiniteIndicesAux]
  | succ n ih =>
    intro i b hb
    simp [List.replicate, getFiniteIndicesAux, hb, ih _ b hb]

/-! ## Claim theorems -/

/-- Claim C5: the projection of each of the three cones is idempotent:
applying it twice gives the same result as applying it once. -/
theorem cone_projection_idempotent (v : List ℚ) :
    ZeroCone.Projection (ZeroCone.Projection v) = ZeroCone.Projection v ∧
    IdentityCone.Projection (IdentityCone.Projection v) = IdentityCone.Projection v ∧
    NegativeOrthant.Projection (NegativeOrthant.Projection v) = NegativeOrthant.Projection v := by
  refine ⟨by simp [ZeroCone.Projection], rfl, ?_⟩
  rw [negativeOrthant_proj_fixed]
  intro y hy
  simp only [NegativeOrthant.Projection, List.mem_map] at hy
  obtain ⟨a, _, rfl⟩ := hy
  exact min_le_left 0 a

/-- Claim C6: the dual-cone aliases are exactly Dual(Zero) = Identity,
Dual(Identity) = Zero, Dual(NegativeOrthant) = NegativeOrthant, and
consequently the dual of the dual is the original cone. -/
theorem cone_dual_involution :
    ConeKind.dualCone ConeKind.zero = ConeKind.identity ∧
    ConeKind.dualCone ConeKind.identity = ConeKind.zero ∧
    ConeKind.dualCone ConeKind.negativeOrthant = ConeKind.negativeOrthant ∧
    ∀ K : ConeKind, ConeKind.dualCone (ConeKind.dualCone K) = K := by
  refine ⟨rfl, rfl, rfl, fun K => ?_⟩
  cases K <;> rfl

/-- Claim C1, counterexample: at v = [1, 1] with an all-ones output buffer,
the NegativeOrthant projection Jacobian keeps the off-diagonal entry (0, 1)
at 1 — the code writes only diagonal entries — while the claimed matrix has
0 there. -/
theorem negativeOrthant_jacobian_offdiag_counterexample :
    NegativeOrthant.Jacobian [(1 : ℚ), 1] (fun _ _ => 1) 0 1 = 1 ∧
    claimedNegativeOrthantJacobian [(1 : ℚ), 1] 0 1 = 0 ∧
    NegativeOrthant.Jacobian [(1 : ℚ), 1] (fun _ _ => 1) 0 1 ≠
      claimedNegativeOrthantJacobian [(1 : ℚ), 1] 0 1 := by
  refine ⟨by decide, by decide, by decide⟩

/-- Claim C1 (amended): NegativeOrthant projection is componentwise
min(0, vᵢ); its projection Jacobian writes the diagonal entries into the
buffer (1 when vᵢ ≤ 0, 0 when vᵢ > 0) and leaves every off-diagonal entry
unchanged from the buffer's prior contents — so the off-diagonals are 0
exactly when the buffer was zeroed beforehand — and its projection Hessian
sets the buffer to zero. -/
theorem negativeOrthant_projection_jacobian_hessian (v b : List ℚ)
    (jac hess : ℕ → ℕ → ℚ) (i j : ℕ) (hi : i < v.length) (hij : i ≠ j) :
    (NegativeOrthant.Projection v).length = v.length ∧
    (NegativeOrthant.Projection v).getD i 0 = min 0 (v.getD i 0) ∧
    (v.getD i 0 ≤ 0 → NegativeOrthant.Jacobian v jac i i = 1) ∧
    (0 < v.getD i 0 → NegativeOrthant.Jacobian v jac i i = 0) ∧
    NegativeOrthant.Jacobian v jac i j = jac i j ∧
    ((∀ a c, jac a c = 0) → NegativeOrthant.Jacobian v jac i j = 0) ∧
    (∀ a c, NegativeOrthant.Hessian v b hess a c = 0) := by
  have hi' : i < (NegativeOrthant.Projection v).length := by
    simpa [NegativeOrthant.Projection] using hi
  refine ⟨by simp [NegativeOrthant.Projection], ?_, ?_, ?_, ?_, ?_, fun _ _ => rfl⟩
  · rw [List.getD_eq_getElem _ _ hi', List.getD_eq_getElem _ _ hi]
    simp [NegativeOrthant.Projection]
  · intro h
    rw [List.getD_eq_getElem _ _ hi] at h
    simp [NegativeOrthant.Jacobian, hi, not_lt.mpr h]
  · intro h
    rw [List.getD_eq_getElem _ _ hi] at h
    simp [NegativeOrthant.Jacobian, hi, h]
  · simp [NegativeOrthant.Jacobian, hij]
  · intro h
    simp [NegativeOrthant.Jacobian, hij, h]

/-- Claim C2: a ControlBound built from bound vectors (lb, ub) has
OutputDimension equal to the number of finite lower bounds plus the number
of finite upper bounds — each bound of magnitude at least DBL_MAX
contributes no output row, every other bound exactly one. -/
theorem controlBound_outputDimension_counts_finite_bounds (lb ub : List Dbl)
    (cb : ControlBound) (h : ControlBound.mk2? lb ub = some cb) :
    cb.OutputDimension = lb.countP Dbl.isFinite + ub.countP Dbl.isFinite := by
  unfold ControlBound.mk2? at h
  split_ifs at h
  cases h
  simp [ControlBound.OutputDimension, GetFiniteIndices, getFiniteIndicesAux_length]

/-- Claim C7: a pair of bound vectors in which some component has lower
bound strictly above upper bound is rejected immediately: the two-argument
constructor fails, and so do SetLowerBound / SetUpperBound on any
ControlBound holding the other half of the offending pair. -/
theorem controlBound_rejects_inverted_bounds (lb ub : List Dbl)
    (cb₁ cb₂ : ControlBound) (i : ℕ)
    (hi : i < lb.length) (hlen : lb.length = ub.length)
    (hm1 : cb₁.m = lb.length) (hcu : cb₁.upper_bound = ub)
    (hm2 : cb₂.m = lb.length) (hcl : cb₂.lower_bound = lb)
    (hgt : Dbl.le (lb.getD i default) (ub.getD i default) = false) :
    ControlBound.mk2? lb ub = none ∧
    cb₁.SetLowerBound? lb = none ∧
    cb₂.SetUpperBound? ub = none := by
  have hpos : 0 < lb.length := Nat.lt_of_le_of_lt (Nat.zero_le i) hi
  have hv : ControlBound.ValidateBounds lb.length lb ub = false := by
    unfold ControlBound.ValidateBounds
    rw [List.all_eq_false]
    exact ⟨i, List.mem_range.mpr hi, by simpa using hgt⟩
  have hv' : ControlBound.ValidateBounds ub.length lb ub = false := hlen ▸ hv
  refine ⟨?_, ?_, ?_⟩
  · unfold ControlBound.mk2?
    rw [if_pos hlen, if_pos hpos, hv]
    simp
  · simp [ControlBound.SetLowerBound?, hm1, hcu, hv, hv']
  · simp [ControlBound.SetUpperBound?, hm2, hcl, hlen, hv, hv']

/-- Claim C7 witness: lb = [1], ub = [0] is rejected by the constructor and
by both setters on matching ControlBounds. -/
theorem controlBound_rejects_inverted_bounds_witness :
    ((0 : ℕ) < [Dbl.fin 1].length ∧
      [Dbl.fin 1].length = [Dbl.fin 0].length ∧
      (⟨1, [Dbl.fin 0], [Dbl.fin 0]⟩ : ControlBound).m = [Dbl.fin 1].length ∧
      (⟨1, [Dbl.fin 0], [Dbl.fin 0]⟩ : ControlBound).upper_bound = [Dbl.fin 0] ∧
      (⟨1, [Dbl.fin 1], [Dbl.fin 2]⟩ : ControlBound).m = [Dbl.fin 1].length ∧
      (⟨1, [Dbl.fin 1], [Dbl.fin 2]⟩ : ControlBound).lower_bound = [Dbl.fin 1] ∧
      Dbl.le ([Dbl.fin 1].getD 0 default) ([Dbl.fin 0].getD 0 default) = false) ∧
    (ControlBound.mk2? [Dbl.fin 1] [Dbl.fin 0] = none ∧
      ControlBound.SetLowerBound? ⟨1, [Dbl.fin 0], [Dbl.fin 0]⟩ [Dbl.fin 1] = none ∧
      ControlBound.SetUpperBound? ⟨1, [Dbl.fin 1], [Dbl.fin 2]⟩ [Dbl.fin 0] = none) :=
  ⟨⟨by decide, by decide, by decide, by decide, by decide, by decide, by decide⟩,
    controlBound_rejects_inverted_bounds [Dbl.fin 1] [Dbl.fin 0]
      ⟨1, [Dbl.fin 0], [Dbl.fin 0]⟩ ⟨1, [Dbl.fin 1], [Dbl.fin 2]⟩ 0
      (by decide) (by decide) (by decide) (by decide) (by decide) (by decide) (by decide)⟩

/-- Claim C2 witness: bounds (1, -inf, -DBL_MAX) / (+inf, 5, 7) construct
successfully and produce 1 + 2 output rows: ±inf and the magnitude-DBL_MAX
entry are omitted. -/
theorem controlBound_outputDimension_counts_finite_bounds_witness :
    ControlBound.mk2? [Dbl.fin 1, Dbl.negInf, Dbl.fin (-dblMax)]
        [Dbl.posInf, Dbl.fin 5, Dbl.fin 7] =
      some ⟨3, [Dbl.fin 1, Dbl.negInf, Dbl.fin (-dblMax)],
        [Dbl.posInf, Dbl.fin 5, Dbl.fin 7]⟩ ∧
    (⟨3, [Dbl.fin 1, Dbl.negInf, Dbl.fin (-dblMax)],
        [Dbl.posInf, Dbl.fin 5, Dbl.fin 7]⟩ : ControlBound).OutputDimension =
      ([Dbl.fin 1, Dbl.negInf, Dbl.fin (-dblMax)]).countP Dbl.isFinite +
        ([Dbl.posInf, Dbl.fin 5, Dbl.fin 7]).countP Dbl.isFinite :=
  ⟨by decide,
    controlBound_outputDimension_counts_finite_bounds
      [Dbl.fin 1, Dbl.negInf, Dbl.fin (-dblMax)]
      [Dbl.posInf, Dbl.fin 5, Dbl.fin 7]
      ⟨3, [Dbl.fin 1, Dbl.negInf, Dbl.fin (-dblMax)],
        [Dbl.posInf, Dbl.fin 5, Dbl.fin 7]⟩ (by decide)⟩

/-- Claim C9: ControlBound.Evaluate writes the lower-bound rows
`lbⱼ - uⱼ` (j over the finite lower indices) first, then the upper-bound
rows `uⱼ - ubⱼ`; every output component is ≤ 0 exactly when every finitely
bounded coordinate satisfies its bound, and the output is a fixed point of
the NegativeOrthant projection (membership in the cone) exactly when every
output component is ≤ 0. -/
theorem controlBound_evaluate_layout_feasibility (cb : ControlBound)
    (u : List ℚ) (hu : u.length = cb.m) :
    (cb.Evaluate u).length = cb.OutputDimension ∧
    (∀ i, i < (GetFiniteIndices cb.lower_bound).length →
      (cb.Evaluate u).getD i 0 =
        (cb.lower_bound.getD ((GetFiniteIndices cb.lower_bound).getD i 0) default).toRat
          - u.getD ((GetFiniteIndices cb.lower_bound).getD i 0) 0) ∧
    (∀ i, i < (GetFiniteIndices cb.upper_bound).length →
      (cb.Evaluate u).getD ((GetFiniteIndices cb.lower_bound).length + i) 0 =
        u.getD ((GetFiniteIndices cb.upper_bound).getD i 0) 0
          - (cb.upper_bound.getD ((GetFiniteIndices cb.upper_bound).getD i 0) default).toRat) ∧
    ((∀ y ∈ cb.Evaluate u, y ≤ 0) ↔
      ((∀ j ∈ GetFiniteIndices cb.lower_bound,
          (cb.lower_bound.getD j default).toRat ≤ u.getD j 0) ∧
        (∀ j ∈ GetFiniteIndices cb.upper_bound,
          u.getD j 0 ≤ (cb.upper_bound.getD j default).toRat))) ∧
    (NegativeOrthant.Projection (cb.Evaluate u) = cb.Evaluate u ↔
      ∀ y ∈ cb.Evaluate u, y ≤ 0) := by
  refine ⟨?_, ?_, ?_, ?_, negativeOrthant_proj_fixed _⟩
  · simp [ControlBound.Evaluate, ControlBound.OutputDimension]
  · intro i hi
    have hiA : i < ((GetFiniteIndices cb.lower_bound).map fun j =>
        (cb.lower_bound.getD j default).toRat - u.getD j 0).length := by
      simpa using hi
    rw [ControlBound.Evaluate, List.getD_append _ _ _ _ hiA,
      List.getD_eq_getElem _ _ hiA, List.getElem_map, List.getD_eq_getElem _ _ hi]
  · intro i hi
    have hA : ((GetFiniteIndices cb.lower_bound).map fun j =>
        (cb.lower_bound.getD j default).toRat - u.getD j 0).length ≤
          (GetFiniteIndices cb.lower_bound).length + i := by
      simp
    rw [ControlBound.Evaluate, List.getD_append_right _ _ _ _ hA]
    simp only [List.length_map, Nat.add_sub_cancel_left]
    have hiB : i < ((GetFiniteIndices cb.upper_bound).map fun j =>
        u.getD j 0 - (cb.upper_bound.getD j default).toRat).length := by
      simpa using hi
    rw [List.getD_eq_getElem _ _ hiB, List.getElem_map, List.getD_eq_getElem _ _ hi]
  · simp only [ControlBound.Evaluate, List.forall_mem_append, List.forall_mem_map,
      sub_nonpos]

/-- A concrete ControlBound for evaluation witnesses: m = 2, lower bounds
(-1, -inf), upper bounds (2, 3). -/
def controlBoundExample : ControlBound :=
  ⟨2, [Dbl.fin (-1), Dbl.negInf], [Dbl.fin 2, Dbl.fin 3]⟩

/-- A concrete control input of matching dimension. -/
def controlInputExample : List ℚ := [0, 5]

/-- Claim C9 witness: the layout and feasibility characterization evaluated
at the concrete ControlBound and control above. -/
theorem controlBound_evaluate_layout_feasibility_witness :
    (controlInputExample.length = controlBoundExample.m) ∧
    ((controlBoundExample.Evaluate controlInputExample).length =
        controlBoundExample.OutputDimension ∧
      (∀ i, i < (GetFiniteIndices controlBoundExample.lower_bound).length →
        (controlBoundExample.Evaluate controlInputExample).getD i 0 =
          (controlBoundExample.lower_bound.getD
              ((GetFiniteIndices controlBoundExample.lower_bound).getD i 0) default).toRat
            - controlInputExample.getD
              ((GetFiniteIndices controlBoundExample.lower_bound).getD i 0) 0) ∧
      (∀ i, i < (GetFiniteIndices controlBoundExample.upper_bound).length →
        (controlBoundExample.Evaluate controlInputExample).getD
            ((GetFiniteIndices controlBoundExample.lower_bound).length + i) 0 =
          controlInputExample.getD
              ((GetFiniteIndices controlBoundExample.upper_bound).getD i 0) 0
            - (controlBoundExample.upper_bound.getD
                ((GetFiniteIndices controlBoundExample.upper_bound).getD i 0) default).toRat) ∧
      ((∀ y ∈ controlBoundExample.Evaluate controlInputExample, y ≤ 0) ↔
        ((∀ j ∈ GetFiniteIndices controlBoundExample.lower_bound,
            (controlBoundExample.lower_bound.getD j default).toRat ≤
              controlInputExample.getD j 0) ∧
          (∀ j ∈ GetFiniteIndices controlBoundExample.upper_bound,
            controlInputExample.getD j 0 ≤
              (controlBoundExample.upper_bound.getD j default).toRat))) ∧
      (NegativeOrthant.Projection (controlBoundExample.Evaluate controlInputExample) =
          controlBoundExample.Evaluate controlInputExample ↔
        ∀ y ∈ controlBoundExample.Evaluate controlInputExample, y ≤ 0)) :=
  ⟨rfl, controlBound_evaluate_layout_feasibility controlBoundExample controlInputExample rfl⟩

/-- Claim C3: IsFullyDefined holds exactly when every knot in [0, N-1] has
non-null dynamics and cost, knot N has a non-null cost, and the initial
state has the state dimension declared by the dynamics; setting an initial
state of the wrong length makes IsFullyDefined false (the check is a total
function — no crash). -/
theorem problem_isFullyDefined_characterization (p : Problem) (x_bad : List ℚ)
    (d : DynamicsStub) (hd : p.models.getD 0 none = some d)
    (hbad : x_bad.length ≠ d.n) :
    (p.IsFullyDefined = true ↔
      ((∀ k, k < p.N → ((p.models.getD k none).isSome = true ∧
          (p.costfuns.getD k none).isSome = true)) ∧
        (p.costfuns.getD p.N none).isSome = true ∧ p.x0.length = d.n)) ∧
    (p.SetInitialState x_bad).IsFullyDefined = false := by
  have hbeq : (x_bad.length == d.n) = false := beq_eq_false_iff_ne.mpr hbad
  constructor
  · unfold Problem.IsFullyDefined
    rw [hd]
    simp only [Bool.and_eq_true, List.all_eq_true, List.mem_range, beq_iff_eq]
    tauto
  · show Problem.IsFullyDefined ⟨p.N, p.costfuns, p.models, p.cons, x_bad⟩ = false
    unfold Problem.IsFullyDefined
    rw [hd]
    simp [hbeq]

/-- A concrete fully defined Problem: one segment (N = 1), dynamics with
state dimension 2 at knot 0, costs at both knots, initial state of length
2. -/
def problemExample : Problem :=
  ⟨1, [some (), some ()], [some ⟨2, 1⟩, none], [[], []], [1, 2]⟩

/-- Claim C3 witness: the characterization at the concrete Problem above,
with the wrong-length initial state [1, 2, 3]. -/
theorem problem_isFullyDefined_characterization_witness :
    (problemExample.models.getD 0 none = some ⟨2, 1⟩ ∧
      ([(1 : ℚ), 2, 3]).length ≠ (⟨2, 1⟩ : DynamicsStub).n) ∧
    ((problemExample.IsFullyDefined = true ↔
      ((∀ k, k < problemExample.N → ((problemExample.models.getD k none).isSome = true ∧
          (problemExample.costfuns.getD k none).isSome = true)) ∧
        (problemExample.costfuns.getD problemExample.N none).isSome = true ∧
          problemExample.x0.length = (⟨2, 1⟩ : DynamicsStub).n)) ∧
    (problemExample.SetInitialState [(1 : ℚ), 2, 3]).IsFullyDefined = false) :=
  ⟨⟨by decide, by decide⟩,
    problem_isFullyDefined_characterization problemExample [(1 : ℚ), 2, 3] ⟨2, 1⟩
      (by decide) (by decide)⟩

/-- Claim C8: SetConstraint with a null constraint handle is rejected for
every Problem, every knot index and both constraint kinds; no updated
Problem is produced, so the registered constraints are unchanged. -/
theorem problem_setConstraint_rejects_null (p : Problem) (kind : ConeKind)
    (k : ℕ) : p.SetConstraint kind none k = none := rfl

/-- Claim C4: NumConstraints(k) is the sum of the output dimensions of the
constraints registered at knot k; it is 0 on a fresh Problem, a successful
SetConstraint at k adds exactly that constraint's output dimension, and
knots other than k are unaffected. -/
theorem problem_numConstraints_sum (p p' : Problem) (kind : ConeKind)
    (c : ConstraintStub) (k j : ℕ) (hinv : p.cons.length = p.N + 1)
    (hs : p.SetConstraint kind (some c) k = some p') (hjk : j ≠ k) :
    p.NumConstraints k = ((p.cons.getD k []).map fun e => e.2.outputDim).sum ∧
    (Problem.init p.N).NumConstraints k = 0 ∧
    p'.NumConstraints k = c.outputDim + p.NumConstraints k ∧
    p'.NumConstraints j = p.NumConstraints j := by
  replace hs : (if c.outputDim = 0 then (none : Option Problem)
      else if k ≤ p.N then
        some { p with cons := p.cons.set k ((kind, c) :: p.cons.getD k []) }
      else none) = some p' := hs
  split_ifs at hs with h0 hk
  injection hs with hs
  subst hs
  refine ⟨rfl, ?_, ?_, ?_⟩
  · rcases Nat.lt_or_ge k (p.N + 1) with hk2 | hk2
    · have hrep : (List.replicate (p.N + 1) ([] : List (ConeKind × ConstraintStub))).getD k [] = [] := by
        rw [List.getD_eq_getElem _ _ (by simpa using hk2)]
        simp
      simp [Problem.init, Problem.NumConstraints, hrep]
    · have hrep : (List.replicate (p.N + 1) ([] : List (ConeKind × ConstraintStub))).getD k [] = [] :=
        List.getD_eq_default _ _ (by simpa using hk2)
      simp [Problem.init, Problem.NumConstraints, hrep]
  · have hklt : k < p.cons.length := by
      rw [hinv]
      exact Nat.lt_succ_of_le hk
    have hset : (p.cons.set k ((kind, c) :: p.cons.getD k [])).getD k [] =
        (kind, c) :: p.cons.getD k [] := by
      rw [List.getD_eq_getElem _ _ (by simpa using hklt)]
      exact List.getElem_set_self _
    show (((p.cons.set k ((kind, c) :: p.cons.getD k [])).getD k []).map
        fun e => e.2.outputDim).sum =
      c.outputDim + ((p.cons.getD k []).map fun e => e.2.outputDim).sum
    rw [hset, List.map_cons, List.sum_cons]
  · have hget : (p.cons.set k ((kind, c) :: p.cons.getD k [])).getD j [] =
        p.cons.getD j [] := by
      rw [List.getD_eq_getD_get?, List.get?_eq_getElem?,
        List.getElem?_set_ne (Ne.symm hjk), ← List.get?_eq_getElem?,
        ← List.getD_eq_getD_get?]
    show (((p.cons.set k ((kind, c) :: p.cons.getD k [])).getD j []).map
        fun e => e.2.outputDim).sum =
      ((p.cons.getD j []).map fun e => e.2.outputDim).sum
    rw [hget]

/-- Claim C4 witness: registering a constraint of output dimension 3 at
knot 0 of a fresh one-segment Problem gives NumConstraints(0) = 3 and
leaves NumConstraints(1) = 0. -/
theorem problem_numConstraints_sum_witness :
    ((Problem.init 1).cons.length = (Problem.init 1).N + 1 ∧
      (Problem.init 1).SetConstraint ConeKind.negativeOrthant (some ⟨3⟩) 0 =
        some ⟨1, [none, none], [none, none], [[(ConeKind.negativeOrthant, ⟨3⟩)], []], []⟩ ∧
      (1 : ℕ) ≠ 0) ∧
    ((Problem.init 1).NumConstraints 0 =
        (((Problem.init 1).cons.getD 0 []).map fun e => e.2.outputDim).sum ∧
      (Problem.init (Problem.init 1).N).NumConstraints 0 = 0 ∧
      (⟨1, [none, none], [none, none], [[(ConeKind.negativeOrthant, ⟨3⟩)], []], []⟩ : Problem).NumConstraints 0 =
        (⟨3⟩ : ConstraintStub).outputDim + (Problem.init 1).NumConstraints 0 ∧
      (⟨1, [none, none], [none, none], [[(ConeKind.negativeOrthant, ⟨3⟩)], []], []⟩ : Problem).NumConstraints 1 =
        (Problem.init 1).NumConstraints 1) :=
  ⟨⟨by decide, by decide, by decide⟩,
    problem_numConstraints_sum (Problem.init 1)
      ⟨1, [none, none], [none, none], [[(ConeKind.negativeOrthant, ⟨3⟩)], []], []⟩
      ConeKind.negativeOrthant ⟨3⟩ 0 1 (by decide) (by decide) (by decide)⟩

/-- Claim C10: a ControlBound built with only the control dimension has all
bounds infinite and hence OutputDimension 0; SetConstraint rejects any
non-null constraint of output dimension 0, and a successful SetConstraint
implies the constraint's output dimension is positive. -/
theorem problem_setConstraint_rejects_zero_output (m : ℕ) (p p' : Problem)
    (kind kind' : ConeKind) (c c' : ConstraintStub) (k k' : ℕ)
    (h0 : c.outputDim = 0)
    (hs : p.SetConstraint kind' (some c') k' = some p') :
    (ControlBound.mkDim m).OutputDimension = 0 ∧
    p.SetConstraint kind (some c) k = none ∧
    0 < c'.outputDim := by
  refine ⟨?_, ?_, ?_⟩
  · rw [ControlBound.OutputDimension, ControlBound.mkDim]
    rw [show GetFiniteIndices (List.replicate m Dbl.negInf) = [] from
      getFiniteIndicesAux_replicate_nonfinite m 0 _ rfl]
    rw [show GetFiniteIndices (List.replicate m Dbl.posInf) = [] from
      getFiniteIndicesAux_replicate_nonfinite m 0 _ rfl]
    rfl
  · simp [Problem.SetConstraint, h0]
  · rcases Nat.eq_zero_or_pos c'.outputDim with h | h
    · simp [Problem.SetConstraint, h] at hs
    · exact h

/-- Claim C10 witness: ControlBound(2) has OutputDimension 0; registering an
output-dimension-0 constraint fails while an output-dimension-4 constraint
succeeds. -/
theorem problem_setConstraint_rejects_zero_output_witness :
    ((⟨0⟩ : ConstraintStub).outputDim = 0 ∧
      (Problem.init 1).SetConstraint ConeKind.zero (some ⟨4⟩) 1 =
        some ⟨1, [none, none], [none, none], [[], [(ConeKind.zero, ⟨4⟩)]], []⟩) ∧
    ((ControlBound.mkDim 2).OutputDimension = 0 ∧
      (Problem.init 1).SetConstraint ConeKind.identity (some ⟨0⟩) 0 = none ∧
      0 < (⟨4⟩ : ConstraintStub).outputDim) :=
  ⟨⟨by decide, by decide⟩,
    problem_setConstraint_rejects_zero_output 2 (Problem.init 1)
      ⟨1, [none, none], [none, none], [[], [(ConeKind.zero, ⟨4⟩)]], []⟩
      ConeKind.identity ConeKind.zero ⟨0⟩ ⟨4⟩ 0 1 (by decide) (by decide)⟩

/-- Claim C1 witness: the amended projection/Jacobian/Hessian facts
evaluated at v = [1, -1] with all-ones buffers: entry (0, 1) for the
Jacobian and every entry (diagonal included) for the Hessian. -/
theorem negativeOrthant_projection_jacobian_hessian_witness :
    ((0 : ℕ) < ([(1 : ℚ), -1]).length ∧ (0 : ℕ) ≠ 1) ∧
    ((NegativeOrthant.Projection [(1 : ℚ), -1]).length = ([(1 : ℚ), -1]).length ∧
      (NegativeOrthant.Projection [(1 : ℚ), -1]).getD 0 0 =
        min 0 (([(1 : ℚ), -1]).getD 0 0) ∧
      (([(1 : ℚ), -1]).getD 0 0 ≤ 0 →
        NegativeOrthant.Jacobian [(1 : ℚ), -1] (fun (_ : ℕ) (_ : ℕ) => (1 : ℚ)) 0 0 = 1) ∧
      (0 < ([(1 : ℚ), -1]).getD 0 0 →
        NegativeOrthant.Jacobian [(1 : ℚ), -1] (fun (_ : ℕ) (_ : ℕ) => (1 : ℚ)) 0 0 = 0) ∧
      NegativeOrthant.Jacobian [(1 : ℚ), -1] (fun (_ : ℕ) (_ : ℕ) => (1 : ℚ)) 0 1 =
        (fun (_ : ℕ) (_ : ℕ) => (1 : ℚ)) 0 1 ∧
      ((∀ a c, (fun (_ : ℕ) (_ : ℕ) => (1 : ℚ)) a c = 0) →
        NegativeOrthant.Jacobian [(1 : ℚ), -1] (fun (_ : ℕ) (_ : ℕ) => (1 : ℚ)) 0 1 = 0) ∧
      (∀ a c,
        NegativeOrthant.Hessian [(1 : ℚ), -1] [0, 0] (fun (_ : ℕ) (_ : ℕ) => (1 : ℚ)) a c = 0)) :=
  ⟨⟨by decide, by decide⟩,
    negativeOrthant_projection_jacobian_hessian [(1 : ℚ), -1] [0, 0]
      (fun (_ : ℕ) (_ : ℕ) => (1 : ℚ)) (fun (_ : ℕ) (_ : ℕ) => (1 : ℚ)) 0 1 (by decide) (by decide)⟩
